import Mathlib

/-!
Verification development for the Mercil hybrid-search repository.

The repository has two retrieval variants:
  * an in-memory pipeline (`HybridSearch.py`): `semantic_search` scores all
    documents by dot product, adds a location boost, applies a hard
    price/type mask by overwriting masked scores with the sentinel `-1e9`,
    sorts with `np.argsort(...)[::-1]`, takes `top_k`, and drops entries at
    or below the threshold `-1e8`;
  * a database-delegated pipeline (`search.py`): the filter and boost are
    translated to SQL (`COALESCE` price predicates, `ILIKE` location boost).

This file shallowly embeds both variants.  Python floats are modelled as
exact rationals (`ℚ`); none of the verified properties depend on float
rounding.  Numpy's `argsort` (ascending; default kind is an unstable
introsort whose placement of tied scores is unspecified for large arrays)
is modelled as an insertion sort of the index list by the lexicographic
key (score, index) — a deterministic refinement of the unspecified tie
order.  No universally quantified theorem below depends on where the model
puts ties (only on score order, membership and counts, which agree across
all refinements); tie placement is only ever asserted at concrete sizes
below numpy's insertion-sort fallback cutoff (about 16 elements), where
numpy itself sorts stably and the model's order is provably the program's.
`top_k` is modelled as a natural number: Python's negative-slice behavior
for a negative `top_k` is outside the modelled domain, while `top_k = 0`
is covered.
-/

namespace Mercil

/-! ## Python string primitives, modelled on `List Char` -/

/-- Characters stripped by Python's `str.strip()` (ASCII whitespace subset;
the unicode whitespace extras are irrelevant to this code base). -/
def isWsPy (c : Char) : Bool :=
  c = ' ' || c = '\t' || c = '\n' || c = '\r' || c = '\x0b' || c = '\x0c'

/-- Python `str.strip()` on a character list. -/
def pyStripL (cs : List Char) : List Char :=
  ((cs.dropWhile isWsPy).reverse.dropWhile isWsPy).reverse

/-- Python `str.strip()` on a string. -/
def pyStrip (s : String) : String :=
  String.mk (pyStripL s.toList)

/-- Substring containment on character lists: Python's `needle in hay`. -/
def substrOfL (needle hay : List Char) : Bool :=
  (List.range (hay.length + 1)).any (fun i => needle.isPrefixOf (hay.drop i))

/-- Python's `needle in hay` for strings (case-sensitive containment). -/
def substrOf (needle hay : String) : Bool :=
  substrOfL needle.toList hay.toList

/-- ASCII lowercasing of a string (models the case folding done by
PostgreSQL `ILIKE` for the ASCII letters used in this code base). -/
def lowerStr (s : String) : String :=
  String.mk (s.toList.map Char.toLower)

/-- PostgreSQL `col ILIKE '%tok%'` for a wildcard-free token `tok`:
case-insensitive substring containment. -/
def ilikeContains (tok hay : String) : Bool :=
  substrOf (lowerStr tok) (lowerStr hay)

/-- Python truthiness of an `Optional[str]`: `None` and `""` are falsy. -/
def strTruthy : Option String → Bool
  | none => false
  | some s => !(s = "")

/-! ## Document model (`load_data` in `HybridSearch.py`) -/

/-- One in-memory document as built by `load_data`: the concatenated `text`,
the display `price` string, the numeric `price_value` (absent when the raw
price was missing or unparseable), the resolved `type_name`, and the
structured `metadata` sub-fields `name`/`road`/`village`. -/
structure Doc where
  id : Option Int
  asset_code : Option String
  text : String
  price : String
  price_value : Option ℚ
  type_name : String
  name : String
  road : String
  village : String
deriving DecidableEq

/-- One row of the `assets` table used by the database-delegated variant
(`search.py` / `data_loader.py`): `metadata->>'asset_details_selling_price'`
is modelled by `price` (absent when the JSON field is null/missing). -/
structure Row where
  name : String
  address : String
  category : String
  price : Option ℚ
deriving DecidableEq

/-! ## Hard filter (`semantic_search` steps 3, `HybridSearch.py` 299-323) -/

/-- Type filter entry: `doc.get("type_name") == type_name`, applied only when
`type_name` is truthy (`if type_name:`). -/
def typeKeep (docType : String) (type_name : Option String) : Bool :=
  if strTruthy type_name then docType = type_name.getD ("") else true

/-- Min-price filter entry:
`doc.get("price_value") is not None and doc["price_value"] >= min_price`,
applied only when `min_price is not None`. -/
def minKeep (price_value : Option ℚ) (min_price : Option ℚ) : Bool :=
  match min_price with
  | none => true
  | some m =>
    match price_value with
    | none => false
    | some p => decide (m ≤ p)

/-- Max-price filter entry, symmetric to `minKeep`. -/
def maxKeep (price_value : Option ℚ) (max_price : Option ℚ) : Bool :=
  match max_price with
  | none => true
  | some mx =>
    match price_value with
    | none => false
    | some p => decide (p ≤ mx)

/-- Combined per-document hard-filter mask entry (`mask &= ...` chain). -/
def docMask (d : Doc) (min_price max_price : Option ℚ) (type_name : Option String) : Bool :=
  typeKeep d.type_name type_name && minKeep d.price_value min_price
    && maxKeep d.price_value max_price

/-- The boolean mask over the whole document collection. -/
def maskVec (docs : List Doc) (min_price max_price : Option ℚ)
    (type_name : Option String) : List Bool :=
  docs.map (fun d => docMask d min_price max_price type_name)

/-! ## Location boost (`semantic_search` step 2, `HybridSearch.py` 287-297) -/

/-- Models `(location in doc["text"]) or (location in road) or (location in village)`. -/
def locMatch (location : String) (d : Doc) : Bool :=
  substrOf location d.text || substrOf location d.road || substrOf location d.village

/-- The additive boost a document receives:
`scores += is_match_location * 0.5`, guarded by `if location:`. -/
def boostAmt (location : Option String) (d : Doc) : ℚ :=
  if strTruthy location then
    (if locMatch (location.getD ("")) d then 1 else 0) * (1 / 2)
  else 0

/-! ## SQL variant of filter and boost (`search.py` 100-132) -/

/-- Models `COALESCE((metadata->>'asset_details_selling_price')::numeric, 0) >= :min_price`. -/
def sqlMinKeep (price : Option ℚ) (m : ℚ) : Bool :=
  decide (m ≤ price.getD 0)

/-- Models `COALESCE((metadata->>'asset_details_selling_price')::numeric, 999999999999) <= :max_price`. -/
def sqlMaxKeep (price : Option ℚ) (mx : ℚ) : Bool :=
  decide (price.getD 999999999999 ≤ mx)

/-- The generated `WHERE` clause of `search_assets`: category equality when
`final_type` is truthy, plus the two `COALESCE` price predicates when the
corresponding bound `is not None`. -/
def sqlWhereKeep (r : Row) (final_type : Option String)
    (final_min final_max : Option ℚ) : Bool :=
  (if strTruthy final_type then decide (r.category = final_type.getD ("")) else true)
    && (match final_min with
        | none => true
        | some m => sqlMinKeep r.price m)
    && (match final_max with
        | none => true
        | some mx => sqlMaxKeep r.price mx)

/-- The generated boost term of `search_assets`:
`CASE WHEN (address ILIKE :loc_boost OR name ILIKE :loc_boost) THEN 0.5 ELSE 0 END`,
produced only when `location_boost` is truthy, else the literal `0`. -/
def sqlBoostAmt (location_boost : Option String) (r : Row) : ℚ :=
  if strTruthy location_boost then
    (if ilikeContains (location_boost.getD ("")) r.address
        || ilikeContains (location_boost.getD ("")) r.name then 1 / 2 else 0)
  else 0

/-! ## Scoring and rank selection (`semantic_search`, `HybridSearch.py` 259-344) -/

/-- Dot product of two vectors (`np.dot` row-wise). -/
def dot (v w : List ℚ) : ℚ :=
  (List.zipWith (fun a b => a * b) v w).sum

/-- The sentinel assigned to masked-out candidates: `filtered_scores[~mask] = -1e9`. -/
def SENT : ℚ := -1000000000

/-- The drop threshold: `if filtered_scores[idx] <= -1e8: continue`. -/
def THRESH : ℚ := -100000000

/-- Ascending comparison key used to model `np.argsort`: compare scores,
with score ties determinized by index.  The index tie-break is a modelling
choice refining numpy's unspecified (unstable-quicksort) tie order; it
coincides with numpy's actual output below the insertion-sort fallback
cutoff, and theorems over all inputs use only consequences that hold for
every refinement of the score order. -/
def KeyLe (fs : List ℚ) (i j : ℕ) : Prop :=
  fs.getD i 0 < fs.getD j 0 ∨ (fs.getD i 0 = fs.getD j 0 ∧ i ≤ j)

instance (fs : List ℚ) : DecidableRel (KeyLe fs) := fun i j => by
  unfold KeyLe; infer_instance

instance (fs : List ℚ) : IsTotal ℕ (KeyLe fs) where
  total i j := by
    unfold KeyLe
    rcases lt_trichotomy (fs.getD i 0) (fs.getD j 0) with h | h | h
    · exact Or.inl (Or.inl h)
    · rcases Nat.le_total i j with hij | hij
      · exact Or.inl (Or.inr ⟨h, hij⟩)
      · exact Or.inr (Or.inr ⟨h.symm, hij⟩)
    · exact Or.inr (Or.inl h)

instance (fs : List ℚ) : IsTrans ℕ (KeyLe fs) where
  trans i j k hij hjk := by
    unfold KeyLe at *
    rcases hij with h1 | ⟨e1, l1⟩
    · rcases hjk with h2 | ⟨e2, _⟩
      · exact Or.inl (h1.trans h2)
      · exact Or.inl (e2 ▸ h1)
    · rcases hjk with h2 | ⟨e2, l2⟩
      · exact Or.inl (e1 ▸ h2)
      · exact Or.inr ⟨e1.trans e2, l1.trans l2⟩

/-- Models `np.argsort(filtered_scores)` (default kind, an unstable
introsort): the index list `0..n-1` sorted ascending by score, ties
determinized by index — see the `KeyLe` comment for the modelling scope. -/
def argsortAsc (fs : List ℚ) : List ℕ :=
  List.insertionSort (KeyLe fs) (List.range fs.length)

/-- Models `np.argsort(filtered_scores)[::-1]`: the ascending argsort reversed. -/
def argsortDesc (fs : List ℚ) : List ℕ :=
  (argsortAsc fs).reverse

/-- The array `filtered_scores`: the boosted scores with masked-out entries overwritten
by the sentinel. -/
def filteredScores (boosted : List ℚ) (mask : List Bool) : List ℚ :=
  List.zipWith (fun s m => if m then s else SENT) boosted mask

/-- Steps 4-5 of `semantic_search`: argsort descending, take `top_k`, skip
entries at or below the threshold, pair the surviving index with its
filtered (= boosted) score. -/
def selectResults (boosted : List ℚ) (mask : List Bool) (top_k : ℕ) : List (ℕ × ℚ) :=
  let fs := filteredScores boosted mask
  (((argsortDesc fs).take top_k).filter (fun i => decide (THRESH < fs.getD i 0))).map
    (fun i => (i, fs.getD i 0))

/-- The function `semantic_search` over a precomputed query-embedding result `query_vec`
(the value of `embed_texts([query])`, an empty list on embedding failure).
Results are (document index, final score) pairs; the caller maps indices
back to documents. -/
def semantic_search (docs : List Doc) (doc_embeddings : List (List ℚ))
    (query_vec : List (List ℚ)) (top_k : ℕ) (min_price max_price : Option ℚ)
    (type_name location : Option String) : List (ℕ × ℚ) :=
  if doc_embeddings.length = 0 then []
  else if query_vec.length = 0 then []
  else
    let scores := doc_embeddings.map (fun e => dot e (query_vec.headD []))
    let boosted := List.zipWith (fun s d => s + boostAmt location d) scores docs
    let mask := maskVec docs min_price max_price type_name
    if mask.all (fun b => !b) then []
    else selectResults boosted mask top_k

/-! ## The `/search` orchestrator (`HybridSearch.py` 384-454)

The endpoint is modelled with the intent-resolver and the embedder as
oracle parameters.  The resolver oracle takes the call ordinal, so that the
two textual calls in the endpoint body are distinguishable; its output is
restricted to well-typed field values (the shape produced by the resolver's
normalization and by its fallback). -/

/-- External-stage invocations performed while serving one request. -/
inductive Ev where
  | resolveCall
  | embedCall
  | scoreCall
  | filterCall
  | boostCall
  | rankCall
deriving DecidableEq, Repr

/-- The request body (`SearchRequest`). -/
structure Req where
  query : String
  top_k : ℕ
  min_price : Option ℚ
  max_price : Option ℚ
  type_name : Option String

/-- Typed view of the resolver output consumed by the endpoint. -/
structure IntentR where
  clean_query : Option String
  type_name : Option String
  min_price : Option ℚ
  max_price : Option ℚ
  location : Option String

/-- Category adoption (`HybridSearch.py` 405-406):
`if llm_info.get("type_name") and not req.type_name: req.type_name = llm_info["type_name"]`. -/
def adoptType (intentType reqType : Option String) : Option String :=
  if strTruthy intentType && !(strTruthy reqType) then intentType else reqType

/-- Price-bound adoption (`HybridSearch.py` 409-413): the intent bound is
used only when present and the caller sent none. -/
def adoptPrice (intentP reqP : Option ℚ) : Option ℚ :=
  if intentP.isSome && reqP.isNone then intentP else reqP

/-- Secondary auto filter (`HybridSearch.py` 425-427): if the stripped query
text is one of the known catalog labels and no category filter is set yet,
the whole query becomes the category filter. -/
def autoFilterType (q : String) (reqType : Option String)
    (asset_type_names : List String) : Option String :=
  if decide (q ∈ asset_type_names) && !(strTruthy reqType) then some q else reqType

/-- The stage events emitted by one `semantic_search` call: the embedder runs
first (unless the document embeddings are empty), scoring at `np.dot`, the
boost only under `if location:`, then the mask build, then ranking unless
the mask emptied the candidate set. -/
def semTrace (doc_embeddings query_vec : List (List ℚ)) (docs : List Doc)
    (min_price max_price : Option ℚ) (type_name location : Option String) : List Ev :=
  if doc_embeddings.length = 0 then []
  else if query_vec.length = 0 then [Ev.embedCall]
  else
    [Ev.embedCall, Ev.scoreCall]
      ++ (if strTruthy location then [Ev.boostCall] else [])
      ++ [Ev.filterCall]
      ++ (if (maskVec docs min_price max_price type_name).all (fun b => !b) then []
          else [Ev.rankCall])

/-- The `/search` endpoint body: resolve (twice, as written at lines 387 and
398 — the first result is overwritten), rewrite the query from
`clean_query`, adopt category/price bounds, append the detected location to
the query, run the secondary auto filter, then call `semantic_search` with
the detected location.  Returns the event trace and the result list. -/
def search_endpoint (resolver : ℕ → IntentR) (embedder : String → List (List ℚ))
    (docs : List Doc) (doc_embeddings : List (List ℚ))
    (asset_type_names : List String) (req : Req) : List Ev × List (ℕ × ℚ) :=
  let _discarded := resolver 0
  let llm := resolver 1
  let q1 := if strTruthy llm.clean_query then llm.clean_query.getD ("") else req.query
  let ty1 := adoptType llm.type_name req.type_name
  let minP := adoptPrice llm.min_price req.min_price
  let maxP := adoptPrice llm.max_price req.max_price
  let q2 :=
    if strTruthy llm.location then
      (if substrOf (llm.location.getD ("")) q1 then q1
       else q1 ++ " ทำเล " ++ llm.location.getD (""))
    else q1
  let ty2 := autoFilterType (pyStrip q2) ty1 asset_type_names
  let query_vec := embedder q2
  ([Ev.resolveCall, Ev.resolveCall]
      ++ semTrace doc_embeddings query_vec docs minP maxP ty2 llm.location,
   semantic_search docs doc_embeddings query_vec req.top_k minP maxP ty2 llm.location)

/-! ## JSON values and `json.loads` (used by both resolver variants)

`json.loads` is modelled by a fueled recursive-descent parser over the JSON
value grammar (numbers as exact rationals; the float rounding json.loads
performs on fractional literals is immaterial to the verified claims). -/

/-- A parsed JSON value.  `null` doubles as Python `None`. -/
inductive JVal where
  | null
  | tru
  | fls
  | num (q : ℚ)
  | str (s : String)
  | arr (l : List JVal)
  | obj (l : List (String × JVal))

/-- JSON insignificant whitespace. -/
def isJsonWs (c : Char) : Bool :=
  c = ' ' || c = '\t' || c = '\n' || c = '\r'

/-- The double-quote character. -/
def chQuote : Char := Char.ofNat 34

/-- The backslash character. -/
def chBackslash : Char := Char.ofNat 92

/-- The opening-brace character. -/
def chLBrace : Char := Char.ofNat 123

/-- The closing-brace character. -/
def chRBrace : Char := Char.ofNat 125

/-- The value of a hexadecimal digit, if any. -/
def hexVal (c : Char) : Option ℕ :=
  if c.isDigit then some (c.toNat - 48)
  else if 'a' ≤ c ∧ c ≤ 'f' then some (c.toNat - 87)
  else if 'A' ≤ c ∧ c ≤ 'F' then some (c.toNat - 55)
  else none

/-- Decimal digit run to a natural number. -/
def digitsToNat (ds : List Char) : ℕ :=
  ds.foldl (fun n c => n * 10 + (c.toNat - 48)) 0

/-- JSON string body (after the opening quote): literal characters and the
standard escapes, ending at the closing quote; raw control characters are
rejected as `json.loads` does. -/
def parseStrBody : List Char → Option (List Char × List Char)
  | [] => none
  | c :: rest =>
    if c = chQuote then some ([], rest)
    else if c = chBackslash then
      match rest with
      | [] => none
      | e :: rest2 =>
        if e = chQuote ∨ e = chBackslash ∨ e = '/' then
          (parseStrBody rest2).map (fun p => (e :: p.1, p.2))
        else if e = 'n' then (parseStrBody rest2).map (fun p => ('\n' :: p.1, p.2))
        else if e = 't' then (parseStrBody rest2).map (fun p => ('\t' :: p.1, p.2))
        else if e = 'r' then (parseStrBody rest2).map (fun p => ('\r' :: p.1, p.2))
        else if e = 'b' then (parseStrBody rest2).map (fun p => ('\x08' :: p.1, p.2))
        else if e = 'f' then (parseStrBody rest2).map (fun p => ('\x0c' :: p.1, p.2))
        else if e = 'u' then
          match rest2 with
          | h1 :: h2 :: h3 :: h4 :: rest3 =>
            match hexVal h1, hexVal h2, hexVal h3, hexVal h4 with
            | some a, some b, some c', some d =>
              (parseStrBody rest3).map
                (fun p => (Char.ofNat (((a * 16 + b) * 16 + c') * 16 + d) :: p.1, p.2))
            | _, _, _, _ => none
          | _ => none
        else none
    else if c.toNat < 32 then none
    else (parseStrBody rest).map (fun p => (c :: p.1, p.2))

/-- JSON number grammar: `-? int frac? exp?` with the leading-zero
restriction, evaluated exactly in `ℚ`. -/
def parseNum (cs : List Char) : Option (ℚ × List Char) :=
  let signed : Bool × List Char :=
    match cs with
    | c :: rest => if c = '-' then (true, rest) else (false, cs)
    | [] => (false, cs)
  let ds := signed.2.takeWhile Char.isDigit
  let cs2 := signed.2.dropWhile Char.isDigit
  if ds.isEmpty then none
  else if 1 < ds.length ∧ ds.headD '0' = '0' then none
  else
    let intv : ℚ := (digitsToNat ds : ℚ)
    let fracStep : Option (ℚ × List Char) :=
      match cs2 with
      | c :: rest =>
        if c = '.' then
          let fd := rest.takeWhile Char.isDigit
          if fd.isEmpty then none
          else some (intv + (digitsToNat fd : ℚ) / (10 : ℚ) ^ fd.length,
                     rest.dropWhile Char.isDigit)
        else some (intv, cs2)
      | [] => some (intv, cs2)
    match fracStep with
    | none => none
    | some (mant, cs3) =>
      let expStep : Option (ℚ × List Char) :=
        match cs3 with
        | c :: rest =>
          if c = 'e' ∨ c = 'E' then
            let esigned : Bool × List Char :=
              match rest with
              | e :: r2 => if e = '-' then (true, r2) else if e = '+' then (false, r2)
                           else (false, rest)
              | [] => (false, rest)
            let ed := esigned.2.takeWhile Char.isDigit
            if ed.isEmpty then none
            else
              let mag : ℚ := (10 : ℚ) ^ digitsToNat ed
              some (if esigned.1 then mant / mag else mant * mag,
                    esigned.2.dropWhile Char.isDigit)
          else some (mant, cs3)
        | [] => some (mant, cs3)
      match expStep with
      | none => none
      | some (v, cs4) => some (if signed.1 then -v else v, cs4)

mutual

/-- One JSON value (leading whitespace allowed), returning the remainder. -/
def parseVal : ℕ → List Char → Option (JVal × List Char)
  | 0, _ => none
  | fuel + 1, cs =>
    match cs.dropWhile isJsonWs with
    | [] => none
    | c :: rest =>
      if c = 'n' then
        if rest.take 3 = ['u', 'l', 'l'] then some (JVal.null, rest.drop 3) else none
      else if c = 't' then
        if rest.take 3 = ['r', 'u', 'e'] then some (JVal.tru, rest.drop 3) else none
      else if c = 'f' then
        if rest.take 4 = ['a', 'l', 's', 'e'] then some (JVal.fls, rest.drop 4) else none
      else if c = chQuote then
        (parseStrBody rest).map (fun p => (JVal.str (String.mk p.1), p.2))
      else if c = chLBrace then
        match rest.dropWhile isJsonWs with
        | d :: rest2 =>
          if d = chRBrace then some (JVal.obj [], rest2)
          else (parseMembers fuel (rest.dropWhile isJsonWs)).map
            (fun p => (JVal.obj p.1, p.2))
        | [] => none
      else if c = '[' then
        match rest.dropWhile isJsonWs with
        | d :: rest2 =>
          if d = ']' then some (JVal.arr [], rest2)
          else (parseElems fuel (rest.dropWhile isJsonWs)).map
            (fun p => (JVal.arr p.1, p.2))
        | [] => none
      else
        (parseNum (c :: rest)).map (fun p => (JVal.num p.1, p.2))

/-- Non-empty object member list, consuming the closing brace. -/
def parseMembers : ℕ → List Char → Option (List (String × JVal) × List Char)
  | 0, _ => none
  | fuel + 1, cs =>
    match cs.dropWhile isJsonWs with
    | [] => none
    | c :: rest =>
      if c = chQuote then
        match parseStrBody rest with
        | none => none
        | some (key, rest2) =>
          match rest2.dropWhile isJsonWs with
          | [] => none
          | d :: rest3 =>
            if d = ':' then
              match parseVal fuel rest3 with
              | none => none
              | some (v, rest4) =>
                match rest4.dropWhile isJsonWs with
                | [] => none
                | e :: rest5 =>
                  if e = ',' then
                    (parseMembers fuel rest5).map
                      (fun p => ((String.mk key, v) :: p.1, p.2))
                  else if e = chRBrace then some ([(String.mk key, v)], rest5)
                  else none
            else none
      else none

/-- Non-empty array element list, consuming the closing bracket. -/
def parseElems : ℕ → List Char → Option (List JVal × List Char)
  | 0, _ => none
  | fuel + 1, cs =>
    match parseVal fuel cs with
    | none => none
    | some (v, rest) =>
      match rest.dropWhile isJsonWs with
      | [] => none
      | e :: rest2 =>
        if e = ',' then (parseElems fuel rest2).map (fun p => (v :: p.1, p.2))
        else if e = ']' then some ([v], rest2)
        else none

end

/-- Models `json.loads`: parse one value and require only whitespace to remain. -/
def jsonLoads (s : String) : Option JVal :=
  match parseVal (s.toList.length + 2) s.toList with
  | some (v, rest) => if (rest.dropWhile isJsonWs).isEmpty then some v else none
  | none => none

/-! ## Intent resolution, in-memory variant (`llm_understand_query`,
`HybridSearch.py` 145-237) -/

/-- Outcome of the external generate-content capability: an exception, or a
response text. -/
inductive CapResult where
  | thrown
  | ok (text : String)

/-- Python truthiness of a JSON-derived value. -/
def jTruthy : JVal → Bool
  | JVal.null => false
  | JVal.tru => true
  | JVal.fls => false
  | JVal.num q => !(q = 0)
  | JVal.str s => !(s = "")
  | JVal.arr l => !l.isEmpty
  | JVal.obj l => !l.isEmpty

/-- Models `dict.get(k)` on the parsed object (`None` when missing; for duplicate
keys `json.loads` keeps the last occurrence). -/
def jGet (fields : List (String × JVal)) (k : String) : JVal :=
  match (fields.filter (fun p => p.1 == k)).getLast? with
  | some p => p.2
  | none => JVal.null

/-- Last index of a character satisfying `p` (Python `str.rfind`). -/
def rFindIdx (p : Char → Bool) (cs : List Char) : Option ℕ :=
  (cs.reverse.findIdx? p).map (fun i => cs.length - 1 - i)

/-- Lines 189-194 of `HybridSearch.py`: take the substring between the first brace
and the last closing brace when both exist in that order, else the whole
text. -/
def braceExtract (t : String) : String :=
  let cs := t.toList
  match cs.findIdx? (fun c => c = chLBrace), rFindIdx (fun c => c = chRBrace) cs with
  | some s, some e => if s < e then String.mk ((cs.drop s).take (e + 1 - s)) else t
  | _, _ => t

/-- Python `float(str)` on the decimal-literal fragment (sign, digits,
optional fraction and exponent; the `inf`/`nan` spellings are out of the
modelled scope, no claim exercises them). -/
def parseFloatPy (s : String) : Option ℚ :=
  let cs := pyStripL s.toList
  let signed : Bool × List Char :=
    match cs with
    | c :: rest =>
      if c = '-' then (true, rest) else if c = '+' then (false, rest) else (false, cs)
    | [] => (false, cs)
  let ds := signed.2.takeWhile Char.isDigit
  let cs2 := signed.2.dropWhile Char.isDigit
  let fracR : Option (ℚ × List Char) :=
    match cs2 with
    | c :: rest =>
      if c = '.' then
        let fd := rest.takeWhile Char.isDigit
        if ds.isEmpty ∧ fd.isEmpty then none
        else some ((digitsToNat ds : ℚ) + (digitsToNat fd : ℚ) / (10 : ℚ) ^ fd.length,
                   rest.dropWhile Char.isDigit)
      else if ds.isEmpty then none else some ((digitsToNat ds : ℚ), cs2)
    | [] => if ds.isEmpty then none else some ((digitsToNat ds : ℚ), [])
  match fracR with
  | none => none
  | some (mant, cs3) =>
    let expR : Option (ℚ × List Char) :=
      match cs3 with
      | c :: rest =>
        if c = 'e' ∨ c = 'E' then
          let esigned : Bool × List Char :=
            match rest with
            | e :: r2 =>
              if e = '-' then (true, r2) else if e = '+' then (false, r2) else (false, rest)
            | [] => (false, rest)
          let ed := esigned.2.takeWhile Char.isDigit
          if ed.isEmpty then none
          else
            let mag : ℚ := (10 : ℚ) ^ digitsToNat ed
            some (if esigned.1 then mant / mag else mant * mag,
                  esigned.2.dropWhile Char.isDigit)
        else some (mant, cs3)
      | [] => some (mant, cs3)
    match expR with
    | none => none
    | some (v, rest) =>
      if rest.isEmpty then some (if signed.1 then -v else v) else none

/-- Models `_to_float` (`HybridSearch.py` 205-211): `None` stays absent, `float(v)`
is attempted otherwise and conversion failures degrade to absent. -/
def pyToFloat : JVal → Option ℚ
  | JVal.null => none
  | JVal.num q => some q
  | JVal.tru => some 1
  | JVal.fls => some 0
  | JVal.str s => parseFloatPy s
  | JVal.arr _ => none
  | JVal.obj _ => none

/-- Normalization of `type_name`/`location` (`HybridSearch.py` 201-203,
216-218): falsy values become `None`; a string is stripped and an empty
result becomes `None`; truthy non-strings pass through unchanged. -/
def normStr (v : JVal) : JVal :=
  match (if jTruthy v then v else JVal.null) with
  | JVal.str s => if pyStrip s = "" then JVal.null else JVal.str (pyStrip s)
  | w => w

/-- The resolver result dict of the in-memory variant.  `clean_query`,
`type_name` and `location` are raw Python values (the code does not force
them to strings); the price bounds are normalized by `_to_float`. -/
structure PyIntent where
  clean_query : JVal
  type_name : JVal
  min_price : Option ℚ
  max_price : Option ℚ
  location : JVal

/-- The fallback intent returned on any failure (`HybridSearch.py` 228-237). -/
def fallbackIntent (raw_query : String) : PyIntent :=
  { clean_query := JVal.str raw_query
    type_name := JVal.null
    min_price := none
    max_price := none
    location := JVal.null }

/-- The successful build (`HybridSearch.py` 199-226): every field degrades
individually, `clean_query` falls back to the raw query when falsy. -/
def buildIntent (raw_query : String) (fields : List (String × JVal)) : PyIntent :=
  { clean_query :=
      if jTruthy (jGet fields ("clean_query")) then jGet fields ("clean_query")
      else JVal.str raw_query
    type_name := normStr (jGet fields ("type_name"))
    min_price := pyToFloat (jGet fields ("min_price"))
    max_price := pyToFloat (jGet fields ("max_price"))
    location := normStr (jGet fields ("location")) }

/-- The parse phase of the in-memory resolver: capability failure, a parse
failure of the brace-extracted substring, or a non-object parse all raise
inside the `try` (the last via `data.get` on a non-dict) and so yield
nothing. -/
def hsParsePhase : CapResult → Option (List (String × JVal))
  | CapResult.thrown => none
  | CapResult.ok s =>
    match jsonLoads (braceExtract (pyStrip s)) with
    | some (JVal.obj fields) => some fields
    | _ => none

/-- Models `llm_understand_query` of `HybridSearch.py`: build from the parsed
object, or return the fallback intent when anything in the `try` raised. -/
def hs_llm_understand_query (raw_query : String) (cap : CapResult) : PyIntent :=
  match hsParsePhase cap with
  | some fields => buildIntent raw_query fields
  | none => fallbackIntent raw_query

/-! ## Intent resolution, database-delegated variant (`llm_understand_query`,
`search.py` 34-66) -/

/-- Python `str.split(sep)` on character lists (all occurrences, keeping
empty chunks), fueled by the input length. -/
def splitOnGo (sep : List Char) : ℕ → List Char → List Char → List (List Char)
  | 0, acc, cs => [acc.reverse ++ cs]
  | fuel + 1, acc, cs =>
    if sep.isPrefixOf cs ∧ !sep.isEmpty then
      acc.reverse :: splitOnGo sep fuel [] (cs.drop sep.length)
    else
      match cs with
      | [] => [acc.reverse]
      | c :: rest => splitOnGo sep fuel (c :: acc) rest

/-- Python `str.replace(pat, rep)` on character lists (all non-overlapping
occurrences, left to right), fueled by the input length. -/
def replaceGo (pat rep : List Char) : ℕ → List Char → List Char
  | 0, cs => cs
  | fuel + 1, cs =>
    if pat.isPrefixOf cs ∧ !pat.isEmpty then
      rep ++ replaceGo pat rep fuel (cs.drop pat.length)
    else
      match cs with
      | [] => []
      | c :: rest => c :: replaceGo pat rep fuel rest

/-- The code-fence pre-processing of `search.py` 60-62: strip, and when the
text starts with a fence, take the chunk after the first fence, delete every
occurrence of `json`, and strip again. -/
def searchPre (s : String) : String :=
  let t := pyStripL s.toList
  let fence := "```".toList
  if fence.isPrefixOf t then
    let part := (splitOnGo fence (t.length + 1) [] t).getD 1 []
    String.mk (pyStripL (replaceGo ("json".toList) [] (part.length + 1) part))
  else String.mk t

/-- Models `llm_understand_query` of `search.py`: return whatever `json.loads`
produced, or the empty dict `\x7b\x7d` when the capability threw or parsing
failed. -/
def search_llm_understand_query : CapResult → JVal
  | CapResult.thrown => JVal.obj []
  | CapResult.ok s =>
    match jsonLoads (searchPre s) with
    | some v => v
    | none => JVal.obj []

/-- The merge step of `search_assets` (`search.py` 87):
`final_query = llm_info.get("clean_query") or req.query`. -/
def finalQueryMerge (fields : List (String × JVal)) (raw_query : String) : JVal :=
  if jTruthy (jGet fields ("clean_query")) then jGet fields ("clean_query")
  else JVal.str raw_query

/-! ## Infrastructure lemmas about the rank selector -/

/-- Strict descending comparison realized by the reversed argsort: larger
score first, ties in reverse index order. -/
def DescKey (fs : List ℚ) (i j : ℕ) : Prop :=
  fs.getD j 0 < fs.getD i 0 ∨ (fs.getD i 0 = fs.getD j 0 ∧ j < i)

theorem argsortAsc_perm (fs : List ℚ) :
    List.Perm (argsortAsc fs) (List.range fs.length) :=
  List.perm_insertionSort _ _

theorem argsortDesc_perm (fs : List ℚ) :
    List.Perm (argsortDesc fs) (List.range fs.length) :=
  (List.reverse_perm _).trans (argsortAsc_perm fs)

theorem mem_argsortDesc (fs : List ℚ) (i : ℕ) :
    i ∈ argsortDesc fs ↔ i < fs.length := by
  rw [(argsortDesc_perm fs).mem_iff, List.mem_range]

theorem sorted_argsortAsc (fs : List ℚ) :
    List.Pairwise (KeyLe fs) (argsortAsc fs) :=
  List.sorted_insertionSort _ _

theorem nodup_argsortAsc (fs : List ℚ) : (argsortAsc fs).Nodup :=
  (argsortAsc_perm fs).nodup_iff.mpr (List.nodup_range _)

theorem pairwise_descKey_argsortDesc (fs : List ℚ) :
    List.Pairwise (DescKey fs) (argsortDesc fs) := by
  have hsn : List.Pairwise (fun i j => KeyLe fs i j ∧ i ≠ j) (argsortAsc fs) :=
    (sorted_argsortAsc fs).and (nodup_argsortAsc fs)
  refine List.pairwise_reverse.mpr (hsn.imp ?_)
  rintro i j ⟨hle, hne⟩
  rcases hle with hlt | ⟨heq, hij⟩
  · exact Or.inl hlt
  · exact Or.inr ⟨heq.symm, lt_of_le_of_ne hij hne⟩

theorem length_filteredScores (b : List ℚ) (m : List Bool) :
    (filteredScores b m).length = min b.length m.length := by
  simp [filteredScores]

theorem getD_filteredScores (b : List ℚ) (m : List Bool) (i : ℕ)
    (hb : i < b.length) (hm : i < m.length) :
    (filteredScores b m).getD i 0 = if m.getD i false then b.getD i 0 else SENT := by
  have hf : i < (filteredScores b m).length := by
    rw [length_filteredScores]; omega
  rw [List.getD_eq_getElem _ _ hf, List.getD_eq_getElem _ _ hb, List.getD_eq_getElem _ _ hm]
  simp [filteredScores]

/-- In a list sorted by a relation under which the predicate is upward
closed, filtering the first `k` entries keeps `min k (total matching)`. -/
theorem length_filter_take_of_pairwise {α : Type} {R : α → α → Prop} (p : α → Bool)
    (hup : ∀ a b, R a b → p b = true → p a = true) :
    ∀ (l : List α) (k : ℕ), List.Pairwise R l →
      ((l.take k).filter p).length = min k (l.filter p).length := by
  intro l
  induction l with
  | nil => intro k _; simp
  | cons x t ih =>
    intro k hp
    cases k with
    | zero => simp
    | succ k =>
      have hx : ∀ y ∈ t, R x y := fun y hy => List.rel_of_pairwise_cons hp hy
      by_cases hpx : p x = true
      · simp only [List.take_succ_cons, List.filter_cons, hpx, if_true,
          List.length_cons, ih k hp.of_cons]
        omega
      · have hnone : ∀ y ∈ t, ¬ p y = true := fun y hy hpy =>
          hpx (hup x y (hx y hy) hpy)
        have h1 : t.filter p = [] :=
          List.filter_eq_nil_iff.mpr hnone
        have h2 : (t.take k).filter p = [] :=
          List.filter_eq_nil_iff.mpr
            (fun y hy => hnone y (List.mem_of_mem_take hy))
        simp [List.take_succ_cons, List.filter_cons, hpx, h1, h2]

/-- Counting matching indexes over `range` equals counting `true` entries of
the boolean list. -/
theorem countP_range_getD : ∀ (m : List Bool),
    (List.range m.length).countP (fun i => m.getD i false) = m.count true := by
  intro m
  induction m with
  | nil => simp
  | cons b t ih =>
    rw [List.length_cons, List.range_succ_eq_map, List.countP_cons, List.countP_map]
    have he : (List.range t.length).countP
        ((fun i => (b :: t).getD i false) ∘ Nat.succ) = t.count true := by
      rw [← ih]
      apply List.countP_congr
      intro a _
      simp [List.getD]
    rw [he]
    cases b <;> simp [List.count_cons, List.getD]

/-- Membership characterization of the selector output. -/
theorem mem_selectResults (boosted : List ℚ) (mask : List Bool) (k : ℕ) (i : ℕ) (s : ℚ) :
    (i, s) ∈ selectResults boosted mask k ↔
      i ∈ (argsortDesc (filteredScores boosted mask)).take k
        ∧ THRESH < (filteredScores boosted mask).getD i 0
        ∧ s = (filteredScores boosted mask).getD i 0 := by
  simp only [selectResults, List.mem_map, List.mem_filter]
  constructor
  · rintro ⟨j, ⟨hjk, hjt⟩, hje⟩
    obtain ⟨rfl, rfl⟩ := Prod.mk.injEq .. ▸ hje
    exact ⟨hjk, by simpa using hjt, rfl⟩
  · rintro ⟨hik, hit, rfl⟩
    exact ⟨i, ⟨hik, by simpa using hit⟩, rfl⟩

theorem sent_lt_thresh : SENT < THRESH := by norm_num [SENT, THRESH]

/-- A mask-failing candidate never appears in the selector output, whatever
its boosted score. -/
theorem not_mem_selectResults_of_mask_false (boosted : List ℚ) (mask : List Bool)
    (k i : ℕ) (s : ℚ) (h : mask.getD i false = false) :
    (i, s) ∉ selectResults boosted mask k := by
  intro hmem
  rw [mem_selectResults] at hmem
  obtain ⟨hik, hit, -⟩ := hmem
  have hiL : i ∈ argsortDesc (filteredScores boosted mask) :=
    List.mem_of_mem_take hik
  have hin : i < (filteredScores boosted mask).length := (mem_argsortDesc _ _).mp hiL
  rw [length_filteredScores] at hin
  rw [getD_filteredScores boosted mask i (by omega) (by omega), h, if_neg (by simp)] at hit
  exact absurd (sent_lt_thresh.trans hit) (lt_irrefl THRESH)

/-- The threshold predicate is upward closed along the descending sort key. -/
theorem threshP_upward (fs : List ℚ) (a b : ℕ) (h : DescKey fs a b)
    (hb : decide (THRESH < fs.getD b 0) = true) :
    decide (THRESH < fs.getD a 0) = true := by
  rcases h with hlt | ⟨heq, -⟩
  · simp only [decide_eq_true_eq] at *
    exact hb.trans hlt
  · rwa [heq]

theorem length_selectResults_le (boosted : List ℚ) (mask : List Bool) (k : ℕ) :
    (selectResults boosted mask k).length ≤ k := by
  unfold selectResults
  rw [List.length_map]
  exact le_trans (List.length_filter_le _ _) (by simp)

/-- When every mask-passing boosted score clears the threshold, the selector
returns exactly `min k (number of mask-passing candidates)` results. -/
theorem length_selectResults_eq (boosted : List ℚ) (mask : List Bool) (k : ℕ)
    (hlen : boosted.length = mask.length)
    (hth : ∀ i, i < mask.length → mask.getD i false = true →
      THRESH < boosted.getD i 0) :
    (selectResults boosted mask k).length = min k (mask.count true) := by
  unfold selectResults
  rw [List.length_map]
  set fs := filteredScores boosted mask with hfs
  have hn : fs.length = mask.length := by
    rw [hfs, length_filteredScores, hlen]; omega
  rw [length_filter_take_of_pairwise _ (threshP_upward fs) _ k
    (pairwise_descKey_argsortDesc fs)]
  congr 1
  rw [← List.countP_eq_length_filter, (argsortDesc_perm fs).countP_eq, hn]
  rw [← countP_range_getD mask]
  apply List.countP_congr
  intro a ha
  rw [List.mem_range] at ha
  have hget := getD_filteredScores boosted mask a (by omega) ha
  have hsent : ¬ THRESH < SENT := not_lt.mpr (le_of_lt sent_lt_thresh)
  rw [hfs]
  by_cases hm : mask.getD a false = true
  · rw [hget, hm]
    simpa using hth a ha hm
  · have hm' : mask.getD a false = false := by
      revert hm; cases mask.getD a false <;> simp
    rw [hget, hm']
    simp [hsent]

theorem boostAmt_nonneg (loc : Option String) (d : Doc) : 0 ≤ boostAmt loc d := by
  unfold boostAmt
  split_ifs <;> norm_num

/-! ## Claim theorems -/

/-- Claim C1 (amended).  In-memory variant: a document with absent
`price_value` fails the hard-filter mask whenever either price bound is
active, regardless of any other field, and a present price is kept exactly
when it satisfies the bound.  Database-delegated variant: the `COALESCE`
translation maps an absent price to `0` for the min bound and to
`999999999999` for the max bound, so an absent-price row passes an active
min bound iff that bound is at most `0`, and passes an active max bound iff
that bound is at least `999999999999` — absent price is not unconditionally
excluded there. -/
theorem price_filter_absent_excluded_amended :
    (∀ (d : Doc) (minP maxP : Option ℚ) (ty : Option String),
      d.price_value = none → (minP.isSome ∨ maxP.isSome) →
      docMask d minP maxP ty = false)
    ∧ (∀ (p m : ℚ), minKeep (some p) (some m) = decide (m ≤ p))
    ∧ (∀ (p mx : ℚ), maxKeep (some p) (some mx) = decide (p ≤ mx))
    ∧ (∀ (m : ℚ), sqlMinKeep none m = decide (m ≤ 0))
    ∧ (∀ (mx : ℚ), sqlMaxKeep none mx = decide ((999999999999 : ℚ) ≤ mx)) := by
  refine ⟨?_, fun p m => rfl, fun p mx => rfl, fun m => rfl, fun mx => rfl⟩
  rintro d minP maxP ty hpv (hm | hm)
  · obtain ⟨m, rfl⟩ := Option.isSome_iff_exists.mp hm
    simp [docMask, minKeep, hpv]
  · obtain ⟨mx, rfl⟩ := Option.isSome_iff_exists.mp hm
    simp [docMask, maxKeep, hpv]

/-- Witness for C1's amended theorem at a concrete absent-price document
and an active min bound. -/
theorem price_filter_absent_excluded_amended_witness :
    docMask ⟨none, none, "t", "p", none, "ty", "n", "r", "v"⟩ (some 5) none none
      = false :=
  price_filter_absent_excluded_amended.1 _ (some 5) none none rfl (Or.inl rfl)

/-- Claim C1 counterexample: in the database-delegated variant, a row whose
price is absent passes the full `WHERE` clause under the active min-price
bound `0`, contradicting "a document with absent priceValue is excluded
whenever either price bound is active ... in both variants". -/
theorem sql_min_bound_absent_price_passes :
    sqlWhereKeep ⟨"h", "a", "c", none⟩ none (some 0) none = true := by decide

/-- Claim C5 (amended).  In-memory variant as claimed: absent/empty location
gives zero boost everywhere, and a non-empty location token adds exactly
`+0.5` iff it occurs case-sensitively in the document text or in the
road/village sub-fields.  Database-delegated variant: the boost is `+0.5`
iff the token matches the row's `address` or `name` via `ILIKE`, which is
case-INSENSITIVE containment. -/
theorem boost_amount_amended :
    (∀ (d : Doc) (loc : Option String), strTruthy loc = false → boostAmt loc d = 0)
    ∧ (∀ (d : Doc) (t : String), ¬ t = "" →
        (boostAmt (some t) d = 1 / 2 ↔ locMatch t d = true)
        ∧ (locMatch t d = false → boostAmt (some t) d = 0))
    ∧ (∀ (r : Row) (loc : Option String), strTruthy loc = false → sqlBoostAmt loc r = 0)
    ∧ (∀ (r : Row) (t : String), ¬ t = "" →
        (sqlBoostAmt (some t) r = 1 / 2 ↔
          (ilikeContains t r.address || ilikeContains t r.name) = true)) := by
  refine ⟨?_, ?_, ?_, ?_⟩
  · intro d loc h; simp [boostAmt, h]
  · intro d t ht
    constructor
    · cases hlm : locMatch t d <;>
        simp [boostAmt, strTruthy, ht, hlm]
    · intro hlm; simp [boostAmt, strTruthy, ht, hlm]
  · intro r loc h; simp [sqlBoostAmt, h]
  · intro r t ht
    cases hil : (ilikeContains t r.address || ilikeContains t r.name) <;>
      simp [sqlBoostAmt, strTruthy, ht, hil]

/-- Witness for C5's amended theorem: a matching non-empty token yields
exactly the `+0.5` boost. -/
theorem boost_amount_amended_witness :
    boostAmt (some ("x")) ⟨none, none, "xyz", "p", none, "ty", "n", "r", "v"⟩ = 1 / 2 :=
  (boost_amount_amended.2.1 _ ("x") (by decide)).1.mpr (by decide)

/-- Claim C5 counterexample: in the database-delegated variant the token
`Rama` earns the boost on a row whose name is `RAMA ROAD` (ILIKE is
case-insensitive), although `Rama` is not a case-sensitive substring of any
row field — contradicting "matching is case-sensitive ... in both
variants". -/
theorem sql_boost_case_insensitive_counterexample :
    sqlBoostAmt (some ("Rama")) ⟨"RAMA ROAD", "-", "c", none⟩ = 1 / 2
    ∧ substrOf ("Rama") ("RAMA ROAD") = false
    ∧ substrOf ("Rama") ("-") = false := by
  refine ⟨?_, by decide, by decide⟩
  have hmatch : (ilikeContains ("Rama") ("-") || ilikeContains ("Rama") ("RAMA ROAD"))
      = true := by decide
  simp [sqlBoostAmt, strTruthy, hmatch]

/-- Claim C7: empty document embeddings, an empty query-embedding result, a
mask that excludes every document, or an empty document collection each
make `semantic_search` return the empty list — never an error and never
unfiltered results. -/
theorem empty_inputs_empty_result (docs : List Doc) (de qv : List (List ℚ))
    (k : ℕ) (minP maxP : Option ℚ) (ty loc : Option String) :
    (de = [] → semantic_search docs de qv k minP maxP ty loc = [])
    ∧ (qv = [] → semantic_search docs de qv k minP maxP ty loc = [])
    ∧ ((maskVec docs minP maxP ty).all (fun b => !b) = true →
        semantic_search docs de qv k minP maxP ty loc = [])
    ∧ (docs = [] → semantic_search docs de qv k minP maxP ty loc = []) := by
  refine ⟨?_, ?_, ?_, ?_⟩
  · intro h; subst h; simp [semantic_search]
  · intro h; subst h; simp [semantic_search]
  · intro h
    simp [semantic_search, h]
  · intro h; subst h
    simp [semantic_search, maskVec]

/-- Witness for C7 at concrete empty inputs. -/
theorem empty_inputs_empty_result_witness :
    semantic_search [] [] [[1]] 5 none none none none = [] :=
  (empty_inputs_empty_result [] [] [[1]] 5 none none none none).1 rfl

/-- Claim C4 (amended).  The selector output never exceeds `k` entries, and
whenever every mask-passing boosted score clears the sentinel threshold it
has exactly `min k (number of mask-passing candidates)` entries (score
distinctness is not needed).  There is no clamping of a non-positive `k`:
`k = 0` yields an empty result even when candidates qualify. -/
theorem select_length_amended (boosted : List ℚ) (mask : List Bool) (k : ℕ) :
    (selectResults boosted mask k).length ≤ k
    ∧ (boosted.length = mask.length →
       (∀ i, i < mask.length → mask.getD i false = true →
         THRESH < boosted.getD i 0) →
       (selectResults boosted mask k).length = min k (mask.count true)) :=
  ⟨length_selectResults_le boosted mask k,
   fun hlen hth => length_selectResults_eq boosted mask k hlen hth⟩

/-- Witness for C4's amended theorem at concrete inputs. -/
theorem select_length_amended_witness :
    (selectResults [3, 1, 2] [true, false, true] 2).length = min 2 2 :=
  (select_length_amended [3, 1, 2] [true, false, true] 2).2 rfl (by decide)

/-- Claim C4 counterexample: with one qualifying candidate, `k = 0` returns
no result — the claimed clamp "to a request of at least 1 result" does not
exist in the code. -/
theorem select_no_clamp_counterexample :
    selectResults [1] [true] 0 = [] ∧ selectResults [1] [true] 1 = [(0, 1)] := by
  refine ⟨by decide, by decide⟩

/-- Claim C10: mask-failing candidates carry the sentinel `-1e9`; a
candidate is surfaced iff it is among the top-`k` argsorted indices and its
filtered score exceeds `-1e8`; consequently a mask-passing candidate whose
boosted score is at or below `-1e8` is silently dropped, so "excluded =
mask-failing" holds only when all real scores exceed `-1e8`. -/
theorem select_threshold_semantics (boosted : List ℚ) (mask : List Bool)
    (k i : ℕ) (s : ℚ) :
    (i < boosted.length → i < mask.length → mask.getD i false = false →
      (filteredScores boosted mask).getD i 0 = SENT)
    ∧ ((i, s) ∈ selectResults boosted mask k ↔
        (i ∈ (argsortDesc (filteredScores boosted mask)).take k
          ∧ THRESH < (filteredScores boosted mask).getD i 0
          ∧ s = (filteredScores boosted mask).getD i 0))
    ∧ (mask.getD i false = true → i < boosted.length → i < mask.length →
        boosted.getD i 0 ≤ THRESH → (i, s) ∉ selectResults boosted mask k) := by
  refine ⟨?_, mem_selectResults boosted mask k i s, ?_⟩
  · intro hb hm hfalse
    rw [getD_filteredScores boosted mask i hb hm, hfalse]
    simp
  · intro htrue hb hm hle hmem
    rw [mem_selectResults] at hmem
    obtain ⟨-, hlt, -⟩ := hmem
    rw [getD_filteredScores boosted mask i hb hm, htrue, if_pos rfl] at hlt
    exact absurd hlt (not_lt.mpr hle)

/-- Witness for C10 at a concrete mask-passing sub-threshold candidate. -/
theorem select_threshold_semantics_witness :
    (0, (-200000000 : ℚ)) ∉ selectResults [-200000000] [true] 1 :=
  (select_threshold_semantics [-200000000] [true] 1 0 (-200000000)).2.2 rfl
    (by decide) (by decide) (by decide)

theorem pairwise_selectResults (boosted : List ℚ) (mask : List Bool) (k : ℕ) :
    List.Pairwise (fun p q : ℕ × ℚ => q.2 < p.2 ∨ (p.2 = q.2 ∧ q.1 < p.1))
      (selectResults boosted mask k) := by
  unfold selectResults
  rw [List.pairwise_map]
  refine ((pairwise_descKey_argsortDesc (filteredScores boosted mask)).sublist
    ((List.filter_sublist _).trans (List.take_sublist _ _))).imp ?_
  intro i j h
  rcases h with hlt | ⟨heq, hji⟩
  · exact Or.inl hlt
  · exact Or.inr ⟨heq, hji⟩

/-- The function `semantic_search` either short-circuits to the empty list or is the
selector applied to the boosted scores and the mask. -/
theorem semantic_search_cases (docs : List Doc) (de qv : List (List ℚ))
    (k : ℕ) (minP maxP : Option ℚ) (ty loc : Option String) :
    semantic_search docs de qv k minP maxP ty loc = []
    ∨ semantic_search docs de qv k minP maxP ty loc
        = selectResults
            (List.zipWith (fun s d => s + boostAmt loc d)
              (de.map (fun e => dot e (qv.headD []))) docs)
            (maskVec docs minP maxP ty) k := by
  unfold semantic_search
  dsimp only
  split_ifs <;> simp

/-- Claim C2 (amended): the result scores are in non-increasing order — a
consequence that holds for every argsort of the filtered scores, whatever
its (unspecified, unstable-quicksort) placement of ties — and as a pure
function of documents, vectors and intent the selection is deterministic
across invocations.  Ties are NOT broken by original ingestion order: the
code guarantees no particular tie order in general, and at the
two-document counterexample (a size at which numpy provably sorts by
stable insertion sort, then reverses) ties surface in reverse ingestion
order. -/
theorem select_sorted_nonincreasing (docs : List Doc) (de qv : List (List ℚ))
    (k : ℕ) (minP maxP : Option ℚ) (ty loc : Option String) :
    List.Pairwise (fun p q : ℕ × ℚ => q.2 ≤ p.2)
      (semantic_search docs de qv k minP maxP ty loc) := by
  rcases semantic_search_cases docs de qv k minP maxP ty loc with h | h <;> rw [h]
  · exact List.Pairwise.nil
  · refine (pairwise_selectResults _ _ k).imp ?_
    intro p q h
    rcases h with hlt | ⟨heq, -⟩
    · exact le_of_lt hlt
    · exact le_of_eq heq.symm

/-- First document of the tie-order counterexample. -/
def tieDocA : Doc := ⟨none, none, "a", "p", none, "ty", "n", "r", "v"⟩

/-- Second document of the tie-order counterexample. -/
def tieDocB : Doc := ⟨none, none, "b", "p", none, "ty", "n", "r", "v"⟩

/-- Claim C2 counterexample: two candidates tied in score (no boost, no
filter) are returned with index 1 before index 0, contradicting the
claimed stable tie-break by original ingestion order.  At this size (2
elements, far below numpy's insertion-sort fallback cutoff) numpy's
argsort is a stable ascending insertion sort, so the reversed order
evaluated here is the order the program produces. -/
theorem select_tie_order_counterexample :
    semantic_search [tieDocA, tieDocB] [[1], [1]] [[1]] 10 none none none none
      = [(1, 1), (0, 1)]
    ∧ semantic_search [tieDocA, tieDocB] [[1], [1]] [[1]] 10 none none none none
      ≠ [(0, 1), (1, 1)] := by
  have h : semantic_search [tieDocA, tieDocB] [[1], [1]] [[1]] 10 none none none none
      = [(1, 1), (0, 1)] := by
    norm_num [semantic_search, selectResults, argsortDesc, argsortAsc,
      filteredScores, maskVec, docMask, typeKeep, minKeep, maxKeep, boostAmt,
      strTruthy, dot, KeyLe, SENT, THRESH, List.insertionSort, List.orderedInsert,
      tieDocA, tieDocB, List.range_succ]
  refine ⟨h, ?_⟩
  rw [h]
  decide

theorem getD_boosted (scores : List ℚ) (docs : List Doc) (loc : Option String)
    (i : ℕ) (hs : i < scores.length) (hd : i < docs.length) :
    (List.zipWith (fun s d => s + boostAmt loc d) scores docs).getD i 0
      = scores.getD i 0 + boostAmt loc (docs.get ⟨i, hd⟩) := by
  have hz : i < (List.zipWith (fun s d => s + boostAmt loc d) scores docs).length := by
    simp only [List.length_zipWith]; omega
  rw [List.getD_eq_getElem _ _ hz, List.getD_eq_getElem _ _ hs]
  simp [List.getElem_zipWith]

/-- Claim C6 (amended): a mask-failing document never appears in the
selection whatever its boost (unconditionally); and under the precondition
that every base score exceeds the drop threshold `-1e8` (true of every
attainable real similarity score), a document is eligible (mask-passing and
above threshold) with the boost exactly when it is eligible without it.
Without that precondition a boost can lift a sub-threshold mask-passing
score above the threshold, changing the eligible set. -/
theorem boost_filter_orthogonal_amended (docs : List Doc) (scores : List ℚ)
    (mask : List Bool) (loc : Option String) (k : ℕ) :
    (∀ i s, mask.getD i false = false →
      (i, s) ∉ selectResults
        (List.zipWith (fun s d => s + boostAmt loc d) scores docs) mask k)
    ∧ (docs.length = scores.length →
       (∀ i, i < scores.length → THRESH < scores.getD i 0) →
       ∀ i, i < scores.length →
        ((mask.getD i false = true ∧ THRESH <
            (List.zipWith (fun s d => s + boostAmt loc d) scores docs).getD i 0)
          ↔ (mask.getD i false = true ∧ THRESH < scores.getD i 0))) := by
  constructor
  · intro i s h
    exact not_mem_selectResults_of_mask_false _ mask k i s h
  · intro hdocs hth i hi
    have hd : i < docs.length := by omega
    have hb := getD_boosted scores docs loc i hi hd
    have hnn := boostAmt_nonneg loc (docs.get ⟨i, hd⟩)
    constructor
    · rintro ⟨hm, -⟩
      exact ⟨hm, hth i hi⟩
    · rintro ⟨hm, hsc⟩
      refine ⟨hm, ?_⟩
      rw [hb]
      linarith

/-- Document used by the C6 witness. -/
def orthoDoc : Doc := ⟨none, none, "z", "p", none, "ty", "n", "r", "v"⟩

/-- Witness for C6's amended theorem: the unconditional conjunct at a
concrete mask-failing candidate, and the eligibility equivalence at a
concrete mask-passing candidate with its preconditions discharged. -/
theorem boost_filter_orthogonal_amended_witness :
    ((0, (5 : ℚ)) ∉ selectResults
      (List.zipWith (fun s d => s + boostAmt none d) [1] [orthoDoc]) [false] 1)
    ∧ ((List.getD [true] 0 false = true ∧ THRESH <
          (List.zipWith (fun s d => s + boostAmt none d) [1] [orthoDoc]).getD 0 0)
        ↔ (List.getD [true] 0 false = true ∧ THRESH < List.getD [1] 0 0)) :=
  ⟨(boost_filter_orthogonal_amended [orthoDoc] [1] [false] none 1).1 0 5 rfl,
   (boost_filter_orthogonal_amended [orthoDoc] [1] [true] none 1).2 rfl
     (by decide) 0 (by decide)⟩

/-- Document used by the C6 counterexample: its text contains the location
token `A`. -/
def eligDoc : Doc := ⟨none, none, "A", "p", none, "ty", "n", "r", "v"⟩

/-- Claim C6 counterexample: with base score exactly `-1e8` (at the drop
threshold) the document is dropped without the boost but surfaced with it —
the set of surfaced documents is NOT identical with and without the boost
when a score sits at or just below the threshold. -/
theorem boost_changes_eligibility_counterexample :
    semantic_search [eligDoc] [[-100000000]] [[1]] 10 none none none (some ("A"))
      = [(0, -199999999 / 2)]
    ∧ semantic_search [eligDoc] [[-100000000]] [[1]] 10 none none none none = [] := by
  have hA : substrOf ("A") ("A") = true := by decide
  have hr : substrOf ("A") ("r") = false := by decide
  have hv : substrOf ("A") ("v") = false := by decide
  have hne : ¬ ("A" : String) = "" := by decide
  constructor
  · norm_num [semantic_search, selectResults, argsortDesc, argsortAsc,
      filteredScores, maskVec, docMask, typeKeep, minKeep, maxKeep, boostAmt,
      strTruthy, locMatch, dot, KeyLe, SENT, THRESH, List.insertionSort,
      List.orderedInsert, eligDoc, List.range_succ, hA, hr, hv, hne]
  · norm_num [semantic_search, selectResults, argsortDesc, argsortAsc,
      filteredScores, maskVec, docMask, typeKeep, minKeep, maxKeep, boostAmt,
      strTruthy, locMatch, dot, KeyLe, SENT, THRESH, List.insertionSort,
      List.orderedInsert, eligDoc, List.range_succ]

/-- Claim C3 (amended): the in-memory resolver is total — any capability
failure or parse failure (thrown exception, empty string, truncated JSON,
prose-only text, non-object JSON) yields the fallback intent with
`clean_query` equal to the raw query and every optional field absent.  The
database-delegated resolver is also total on such failures but returns the
EMPTY intent dict — `clean_query` absent rather than equal to the raw
query; its caller's merge step then restores the raw query. -/
theorem resolver_fallback_amended :
    (∀ (raw : String) (cap : CapResult), hsParsePhase cap = none →
      hs_llm_understand_query raw cap = fallbackIntent raw)
    ∧ (∀ (s : String), jsonLoads (searchPre s) = none →
      search_llm_understand_query (CapResult.ok s) = JVal.obj [])
    ∧ (search_llm_understand_query CapResult.thrown = JVal.obj [])
    ∧ (∀ raw : String, finalQueryMerge [] raw = JVal.str raw) := by
  refine ⟨?_, ?_, rfl, fun raw => rfl⟩
  · intro raw cap h
    unfold hs_llm_understand_query
    rw [h]
  · intro s h
    simp [search_llm_understand_query, h]

/-- Witness for C3's amended theorem on the enumerated malformed responses:
a thrown capability call, an empty response, a truncated JSON response and
a prose-only response. -/
theorem resolver_fallback_amended_witness :
    hs_llm_understand_query ("บ้านลาดพร้าว") CapResult.thrown
      = fallbackIntent ("บ้านลาดพร้าว")
    ∧ hs_llm_understand_query ("บ้านลาดพร้าว") (CapResult.ok (""))
      = fallbackIntent ("บ้านลาดพร้าว")
    ∧ hs_llm_understand_query ("บ้านลาดพร้าว") (CapResult.ok ("\x7b\"clean_query\": "))
      = fallbackIntent ("บ้านลาดพร้าว")
    ∧ hs_llm_understand_query ("บ้านลาดพร้าว") (CapResult.ok ("sorry, no JSON today"))
      = fallbackIntent ("บ้านลาดพร้าว")
    ∧ search_llm_understand_query (CapResult.ok ("")) = JVal.obj [] :=
  ⟨resolver_fallback_amended.1 _ _ rfl,
   resolver_fallback_amended.1 _ _ rfl,
   resolver_fallback_amended.1 _ _ rfl,
   resolver_fallback_amended.1 _ _ rfl,
   resolver_fallback_amended.2.1 _ rfl⟩

/-- Claim C3 counterexample: on an empty (hence unparseable) response the
database-delegated resolver returns the empty dict — an intent whose
`clean_query` is absent, not one carrying the raw query, contradicting
"returns a valid QueryIntent with cleanQuery equal to the raw query ... in
both variants". -/
theorem search_resolver_empty_dict_counterexample :
    search_llm_understand_query (CapResult.ok ("")) = JVal.obj []
    ∧ jGet [] ("clean_query") = JVal.null
    ∧ JVal.null ≠ JVal.str ("บ้านลาดพร้าว") := by
  refine ⟨rfl, rfl, ?_⟩
  intro h
  cases h

/-- Claim C9 (amended): no catalog-membership validation exists for the
category carried by a resolved intent — any truthy capability-supplied
category is adopted verbatim as the effective filter whenever the caller
supplied none; only the secondary auto-filter path (query text equal to a
catalog label) guarantees that the adopted category is a member of the
known catalog. -/
theorem category_validation_amended :
    (∀ (v reqTy : Option String), strTruthy v = true → strTruthy reqTy = false →
      adoptType v reqTy = v)
    ∧ (∀ (q : String) (catalog : List String) (t : String),
        autoFilterType q none catalog = some t → t ∈ catalog) := by
  constructor
  · intro v r hv hr
    unfold adoptType
    rw [hv, hr]
    simp
  · intro q catalog t h
    unfold autoFilterType at h
    by_cases hq : q ∈ catalog
    · rw [if_pos (by simp [strTruthy, hq])] at h
      obtain rfl : q = t := Option.some.inj h
      exact hq
    · rw [if_neg (by simp [strTruthy, hq])] at h
      cases h

/-- Witness for C9's amended theorem: verbatim adoption of a non-catalog
category, and catalog membership of an auto-filter adoption. -/
theorem category_validation_amended_witness :
    adoptType (some ("spaceship")) none = some ("spaceship")
    ∧ ("บ้านเดี่ยว") ∈ ["บ้านเดี่ยว", "ทาวน์เฮ้าส์"] :=
  ⟨category_validation_amended.1 (some ("spaceship")) none (by decide) rfl,
   category_validation_amended.2 ("บ้านเดี่ยว") ["บ้านเดี่ยว", "ทาวน์เฮ้าส์"]
     ("บ้านเดี่ยว") (by decide)⟩

/-- Claim C9 counterexample: the capability answers with a category label
that is not in the catalog; the resolver carries it unchanged and the
adoption step installs it as the effective category filter. -/
theorem unvalidated_category_counterexample :
    (hs_llm_understand_query ("บ้าน")
        (CapResult.ok ("\x7b\"type_name\": \"spaceship\"\x7d"))).type_name
      = JVal.str ("spaceship")
    ∧ adoptType (some ("spaceship")) none = some ("spaceship")
    ∧ ("spaceship") ∉ ["บ้านเดี่ยว", "ทาวน์เฮ้าส์", "ห้องชุดพักอาศัย"] := by
  refine ⟨rfl, rfl, by decide⟩

/-- Resolver oracle used by the C8 trace evaluation. -/
def c8Resolver : ℕ → IntentR := fun _ =>
  { clean_query := some ("c"), type_name := none, min_price := none,
    max_price := none, location := some ("A") }

/-- Document used by the C8 trace evaluation. -/
def c8Doc : Doc := ⟨none, none, "A", "p", none, "ty", "n", "r", "v"⟩

/-- Request used by the C8 trace evaluation. -/
def c8Req : Req := ⟨"x", 3, none, none, none⟩

/-- Claim C8: the endpoint invokes the intent resolver TWICE per request —
the calls at lines 387 and 398 of `HybridSearch.py`, the first result being
discarded — while the embedder, scorer, boost, filter and rank stages each
run once on the full pipeline path.  Evaluated at a concrete request. -/
theorem search_trace_double_resolve :
    (search_endpoint c8Resolver (fun _ => [[1]]) [c8Doc] [[1]] [] c8Req).1
      = [Ev.resolveCall, Ev.resolveCall, Ev.embedCall, Ev.scoreCall,
         Ev.boostCall, Ev.filterCall, Ev.rankCall]
    ∧ (search_endpoint c8Resolver (fun _ => [[1]]) [c8Doc] [[1]] [] c8Req).1.count
        Ev.resolveCall = 2 := by
  refine ⟨by decide, by decide⟩

end Mercil
